import Mathlib

/-!
Verification of the notes CRUD service (`src/pkg/db/db.go` and
`src/cmd/server/main.go`) against its specification.

Strings are modelled as `List Char`, machine integers as `Int` (Go's
`strconv.Atoi` range check is made explicit), the `notes` table as a list of
rows together with the next value of the `SERIAL` id sequence, and fallible
operations return `Except (List Char) _` carrying the Go error message.
-/

namespace NotesApp

/-- Mirror of `db.Note` (and the identical `main.Note`): id, title, content. -/
structure Note where
  id : Int
  title : List Char
  content : List Char
  deriving DecidableEq

/-- State of the `notes` table: the rows in insertion order, plus the next
value of the `SERIAL` primary-key sequence (starts at 1). -/
structure DBState where
  notes : List Note
  nextId : Int
  deriving DecidableEq

/-- The error message produced by `fmt.Errorf("note not found")` in
`GetNote`, `UpdateNote` and `DeleteNote`. -/
def noteNotFoundMsg : List Char := "note not found".toList

/-- Mirror of `DB.GetNote`: `SELECT id, title, content FROM notes WHERE id = $1`;
`sql.ErrNoRows` becomes the "note not found" error. -/
def getNote (s : DBState) (id : Int) : Except (List Char) Note :=
  match s.notes.find? (fun n => n.id == id) with
  | some n => Except.ok n
  | none => Except.error noteNotFoundMsg

/-- Mirror of `DB.CreateNote`: `INSERT INTO notes (title, content) VALUES ($1,$2)
RETURNING id`; returns the server-assigned id and the new table state. -/
def createNote (s : DBState) (title content : List Char) : Int × DBState :=
  (s.nextId, ⟨s.notes ++ [⟨s.nextId, title, content⟩], s.nextId + 1⟩)

/-- Mirror of `DB.UpdateNote`: `UPDATE notes SET title=$1, content=$2 WHERE id=$3`;
zero rows affected becomes the "note not found" error. -/
def updateNote (s : DBState) (id : Int) (title content : List Char) :
    Except (List Char) DBState :=
  if s.notes.any (fun n => n.id == id) then
    Except.ok ⟨s.notes.map (fun n => if n.id == id then ⟨n.id, title, content⟩ else n), s.nextId⟩
  else Except.error noteNotFoundMsg

/-- Mirror of `DB.DeleteNote`: `DELETE FROM notes WHERE id = $1`;
zero rows affected becomes the "note not found" error. -/
def deleteNote (s : DBState) (id : Int) : Except (List Char) DBState :=
  if s.notes.any (fun n => n.id == id) then
    Except.ok ⟨s.notes.filter (fun n => !(n.id == id)), s.nextId⟩
  else Except.error noteNotFoundMsg

/-- One element of a parsed SQL `LIKE` pattern: `%` (any sequence), `_`
(any single character), or a literal character. -/
inductive LikeTok where
  | anySeq
  | anyOne
  | lit (c : Char)
  deriving DecidableEq

/-- Parse a SQL `LIKE` pattern: `%` and `_` are wildcards, backslash (the
default escape character) makes the following pattern character literal.
A dangling final escape cannot arise from the `"%" + query + "%"` patterns
`SearchNotes` builds, and is parsed as nothing. -/
def likeLex : List Char → List LikeTok
  | [] => []
  | p :: ps =>
    if p = '\\' then
      match ps with
      | [] => []
      | c :: ps2 => LikeTok.lit c :: likeLex ps2
    else if p = '%' then LikeTok.anySeq :: likeLex ps
    else if p = '_' then LikeTok.anyOne :: likeLex ps
    else LikeTok.lit p :: likeLex ps

/-- Run a parsed `LIKE` pattern against a string, case-insensitively (ASCII
lowering via `Char.toLower`, which is how PostgreSQL `ILIKE` compares basic
latin letters): `%` consumes any amount, `_` exactly one character, a literal
must equal the next character up to case. -/
def likeRun : List LikeTok → List Char → Bool
  | [], s => s.isEmpty
  | LikeTok.anySeq :: ts, s => (s.tails).any (fun t => likeRun ts t)
  | LikeTok.anyOne :: _, [] => false
  | LikeTok.anyOne :: ts, _ :: s2 => likeRun ts s2
  | LikeTok.lit _ :: _, [] => false
  | LikeTok.lit p :: ts, c :: s2 => (c.toLower == p.toLower) && likeRun ts s2

/-- PostgreSQL `ILIKE`: parse the pattern, then match case-insensitively. -/
def ilikeMatch (pat s : List Char) : Bool := likeRun (likeLex pat) s

/-- The `ILIKE` pattern `"%" + query + "%"` built by `SearchNotes`. -/
def searchPattern (q : List Char) : List Char := '%' :: (q ++ ['%'])

/-- The `WHERE title ILIKE $1 OR content ILIKE $1` row filter of `SearchNotes`. -/
def noteMatches (q : List Char) (n : Note) : Bool :=
  ilikeMatch (searchPattern q) n.title || ilikeMatch (searchPattern q) n.content

/-- Mirror of `DB.SearchNotes`: the empty query selects the whole table,
otherwise rows are filtered by `title ILIKE '%'+q+'%' OR content ILIKE '%'+q+'%'`. -/
def searchNotes (s : DBState) (q : List Char) : List Note :=
  if q = [] then s.notes else s.notes.filter (noteMatches q)

/-- Case-insensitive substring test: `q` occurs in `s` after ASCII lowering.
This is the spec's wording of what search matches ("title or content
case-insensitively contains the query substring"). -/
def containsCI (q s : List Char) : Bool :=
  ((s.map Char.toLower).tails).any (fun t => (q.map Char.toLower).isPrefixOf t)

/-- Modelled from the spec's words (for comparison with `searchNotes`):
search with non-empty query returns exactly the notes whose title or content
case-insensitively contains the query as a substring. -/
def specSearchNotes (s : DBState) (q : List Char) : List Note :=
  s.notes.filter (fun n => containsCI q n.title || containsCI q n.content)

/-- True when the query contains none of the `LIKE` metacharacters
`%`, `_` and `\`. -/
def noSpecials (q : List Char) : Bool :=
  q.all (fun c => !(c == '%' || c == '_' || c == '\\'))

/-- Numeric value of a list of decimal digit characters (most significant first). -/
def digitsVal (ds : List Char) : Nat :=
  ds.foldl (fun a c => a * 10 + (c.toNat - 48)) 0

/-- Largest value of Go's 64-bit `int`. -/
def int64Max : Int := 9223372036854775807

/-- Smallest value of Go's 64-bit `int`. -/
def int64Min : Int := -9223372036854775808

/-- Mirror of `strconv.Atoi` (base 10, 64-bit `int`): an optional sign followed
by at least one decimal digit; anything else, or a value outside the 64-bit
range, is an error. -/
def atoi (cs : List Char) : Except Unit Int :=
  let sd : Int × List Char :=
    match cs with
    | '+' :: rest => (1, rest)
    | '-' :: rest => (-1, rest)
    | _ => (1, cs)
  if sd.2 = [] then Except.error ()
  else if sd.2.all Char.isDigit then
    let v : Int := sd.1 * (digitsVal sd.2 : Int)
    if v < int64Min ∨ int64Max < v then Except.error () else Except.ok v
  else Except.error ()

/-- A JSON value, as produced by `encoding/json`. -/
inductive Json where
  | null
  | str (s : List Char)
  | num (n : Int)
  | arr (elems : List Json)
  | obj (fields : List (List Char × Json))

/-- An HTTP response body: empty, plain text (`http.Error`), or JSON. -/
inductive Body where
  | empty
  | text (s : List Char)
  | json (v : Json)

/-- An HTTP response: status code and body. -/
structure HttpResponse where
  status : Nat
  body : Body

/-- JSON encoding of a note, per the struct tags on `Note`. -/
def encodeNote (n : Note) : Json :=
  Json.obj [("id".toList, Json.num n.id),
            ("title".toList, Json.str n.title),
            ("content".toList, Json.str n.content)]

/-- Go's `encoding/json` marshalling of a `[]Note` slice built by appending to a
`nil` slice: the slice is `nil` exactly when no element was appended, and a
`nil` slice marshals to JSON `null`, not to `[]`. -/
def encodeNoteSlice (ns : List Note) : Json :=
  match ns with
  | [] => Json.null
  | _ => Json.arr (ns.map encodeNote)

/-- Response of `http.Error(w, "Invalid ID", http.StatusBadRequest)`. -/
def invalidIdResponse : HttpResponse := ⟨400, Body.text "Invalid ID".toList⟩

/-- Response of `http.Error(w, "Note not found", http.StatusNotFound)`. -/
def notFoundResponse : HttpResponse := ⟨404, Body.text "Note not found".toList⟩

/-- Response of `http.Error(w, "Internal server error", http.StatusInternalServerError)`. -/
def internalErrorResponse : HttpResponse :=
  ⟨500, Body.text "Internal server error".toList⟩

/-- Response of `http.Error(w, "Invalid request", http.StatusBadRequest)`. -/
def invalidRequestResponse : HttpResponse := ⟨400, Body.text "Invalid request".toList⟩

/-- Response of `http.Error(w, "Title and content required", http.StatusBadRequest)`. -/
def titleContentRequiredResponse : HttpResponse :=
  ⟨400, Body.text "Title and content required".toList⟩

/-- Response of `http.Error(w, "Missing query parameter 'q'", http.StatusBadRequest)`. -/
def missingQueryResponse : HttpResponse :=
  ⟨400, Body.text "Missing query parameter \x27q\x27".toList⟩

/-- The error classification appearing in the get/update/delete handlers:
`if err.Error() == "note not found"` then 404 "Note not found" else
500 "Internal server error". -/
def classifyDbError (msg : List Char) : HttpResponse :=
  if msg = noteNotFoundMsg then notFoundResponse else internalErrorResponse

/-- Mirror of `makeGetNoteHandler`: parse the id (400 on failure or on a
non-positive value), fetch the note, classify a storage error, otherwise
200 with the note encoded as JSON. -/
def getNoteHandler (s : DBState) (idStr : List Char) : HttpResponse :=
  match atoi idStr with
  | Except.error _ => invalidIdResponse
  | Except.ok id =>
    if id ≤ 0 then invalidIdResponse
    else
      match getNote s id with
      | Except.error msg => classifyDbError msg
      | Except.ok n => ⟨200, Body.json (encodeNote n)⟩

/-- Mirror of `makeCreateNoteHandler`. The argument is the result of JSON-decoding
the request body (`none` models a decode error; a field absent from the body
decodes to the empty string). -/
def createNoteHandler (s : DBState) (body : Option Note) : HttpResponse × DBState :=
  match body with
  | none => (invalidRequestResponse, s)
  | some note =>
    if note.title = [] ∨ note.content = [] then (titleContentRequiredResponse, s)
    else
      let r := createNote s note.title note.content
      (⟨201, Body.json (encodeNote ⟨r.1, note.title, note.content⟩)⟩, r.2)

/-- Mirror of `makeUpdateNoteHandler`: id validation, body validation, then
the update; zero rows affected classifies to 404, success is 200 with empty body. -/
def updateNoteHandler (s : DBState) (idStr : List Char) (body : Option Note) :
    HttpResponse × DBState :=
  match atoi idStr with
  | Except.error _ => (invalidIdResponse, s)
  | Except.ok id =>
    if id ≤ 0 then (invalidIdResponse, s)
    else
      match body with
      | none => (invalidRequestResponse, s)
      | some note =>
        if note.title = [] ∨ note.content = [] then (titleContentRequiredResponse, s)
        else
          match updateNote s id note.title note.content with
          | Except.error msg => (classifyDbError msg, s)
          | Except.ok s2 => (⟨200, Body.empty⟩, s2)

/-- Mirror of `makeDeleteNoteHandler`. -/
def deleteNoteHandler (s : DBState) (idStr : List Char) : HttpResponse × DBState :=
  match atoi idStr with
  | Except.error _ => (invalidIdResponse, s)
  | Except.ok id =>
    if id ≤ 0 then (invalidIdResponse, s)
    else
      match deleteNote s id with
      | Except.error msg => (classifyDbError msg, s)
      | Except.ok s2 => (⟨200, Body.empty⟩, s2)

/-- The JSON object key of the search response. -/
def searchResultKey : List Char := "search_result".toList

/-- Mirror of `makeSearchNotesHandler`: `q` is `r.URL.Query().Get("q")` (the
empty string when the parameter is absent); empty `q` is 400, otherwise 200
with `{"search_result": ...}` where the value is the marshalled `[]Note`
slice (JSON `null` when the slice is `nil`, i.e. when there are no matches). -/
def searchNotesHandler (s : DBState) (q : List Char) : HttpResponse :=
  if q = [] then missingQueryResponse
  else ⟨200, Body.json (Json.obj [(searchResultKey, encodeNoteSlice (searchNotes s q))])⟩

/-- HTTP request method. -/
inductive Method where
  | get
  | post
  | put
  | delete
  deriving DecidableEq

/-- An HTTP request as the handlers see it: method, path segments, the `q`
query parameter (empty when absent), and the JSON-decoded body (`none` for a
body that fails to decode; irrelevant for GET/DELETE). -/
structure HttpRequest where
  method : Method
  path : List (List Char)
  q : List Char
  body : Option Note

/-- The `gorilla/mux` route template `/api/v1/notes/{id}`: the variable segment
matches any non-empty segment. Returns the matched `{id}` segment. -/
def matchNotesIdPath (path : List (List Char)) : Option (List Char) :=
  match path with
  | [a, b, c, d] =>
    if a = "api".toList ∧ b = "v1".toList ∧ c = "notes".toList ∧ d ≠ [] then some d
    else none
  | _ => none

/-- The path `/api/v1/notes`. -/
def notesPath : List (List Char) := ["api".toList, "v1".toList, "notes".toList]

/-- The path `/api/v1/notes/search`. -/
def searchPath : List (List Char) :=
  ["api".toList, "v1".toList, "notes".toList, "search".toList]

/-- The `gorilla/mux` fallback response when no route matches. -/
def routerNotFoundResponse : HttpResponse :=
  ⟨404, Body.text "404 page not found".toList⟩

/-- Mirror of the `main` route registration, in registration order (gorilla/mux
matches routes in the order they were added): for GET the `/api/v1/notes/{id}`
route is registered before `/api/v1/notes/search`, so it is tried first. -/
def dispatch (s : DBState) (r : HttpRequest) : HttpResponse × DBState :=
  match r.method with
  | Method.get =>
    match matchNotesIdPath r.path with
    | some idStr => (getNoteHandler s idStr, s)
    | none =>
      if r.path = searchPath then (searchNotesHandler s r.q, s)
      else (routerNotFoundResponse, s)
  | Method.post =>
    if r.path = notesPath then createNoteHandler s r.body
    else (routerNotFoundResponse, s)
  | Method.put =>
    match matchNotesIdPath r.path with
    | some idStr => updateNoteHandler s idStr r.body
    | none => (routerNotFoundResponse, s)
  | Method.delete =>
    match matchNotesIdPath r.path with
    | some idStr => deleteNoteHandler s idStr
    | none => (routerNotFoundResponse, s)

/-- The state after serving one request. -/
def stepRequest (s : DBState) (r : HttpRequest) : DBState := (dispatch s r).2

/-- The store at startup: empty table, id sequence at 1. -/
def emptyState : DBState := ⟨[], 1⟩

/-- Concrete fixture: one note with title "abc" and content "xyz". -/
def stateAbc : DBState := ⟨[⟨1, "abc".toList, "xyz".toList⟩], 2⟩

/-- Every stored note has a non-empty title and a non-empty content. -/
def goodNotes (s : DBState) : Prop :=
  ∀ n ∈ s.notes, n.title ≠ [] ∧ n.content ≠ []

/-! ### Lemmas about the `LIKE` matcher -/

theorem likeLex_nil : likeLex [] = [] := rfl

theorem likeLex_pct (ps : List Char) :
    likeLex ('%' :: ps) = LikeTok.anySeq :: likeLex ps := by
  rw [likeLex.eq_def]
  simp

theorem likeLex_lit (p : Char) (ps : List Char)
    (h1 : p ≠ '%') (h2 : p ≠ '_') (h3 : p ≠ '\\') :
    likeLex (p :: ps) = LikeTok.lit p :: likeLex ps := by
  rw [likeLex.eq_def]
  simp [h1, h2, h3]

theorem likeRun_nil (s : List Char) : likeRun [] s = s.isEmpty := rfl

theorem likeRun_anySeq (ts : List LikeTok) (s : List Char) :
    likeRun (LikeTok.anySeq :: ts) s = (s.tails).any (fun t => likeRun ts t) := rfl

theorem likeRun_lit_nil (p : Char) (ts : List LikeTok) :
    likeRun (LikeTok.lit p :: ts) [] = false := rfl

theorem likeRun_lit_cons (p c : Char) (ts : List LikeTok) (s : List Char) :
    likeRun (LikeTok.lit p :: ts) (c :: s) =
      ((c.toLower == p.toLower) && likeRun ts s) := rfl

theorem likeRun_anySeq_only (s : List Char) : likeRun [LikeTok.anySeq] s = true := by
  rw [likeRun_anySeq]
  simp only [List.any_eq_true]
  exact ⟨[], (List.mem_tails _ _).mpr List.nil_suffix, rfl⟩

theorem noSpecials_cons {p : Char} {q : List Char} (h : noSpecials (p :: q) = true) :
    (p ≠ '%' ∧ p ≠ '_' ∧ p ≠ '\\') ∧ noSpecials q = true := by
  simp only [noSpecials, List.all_cons, Bool.and_eq_true, Bool.not_eq_true',
    Bool.or_eq_false_iff, beq_eq_false_iff_ne, ne_eq] at h
  refine ⟨⟨h.1.1.1, h.1.1.2, h.1.2⟩, ?_⟩
  simp only [noSpecials]
  exact h.2

theorem likeLex_append_pct (q : List Char) (hq : noSpecials q = true) :
    likeLex (q ++ ['%']) = q.map LikeTok.lit ++ [LikeTok.anySeq] := by
  induction q with
  | nil => simp [likeLex]
  | cons p q ih =>
    obtain ⟨⟨h1, h2, h3⟩, hq2⟩ := noSpecials_cons hq
    rw [List.cons_append, likeLex_lit p _ h1 h2 h3, ih hq2, List.map_cons, List.cons_append]

theorem likeRun_lits_pct (q : List Char) :
    ∀ s : List Char, likeRun (q.map LikeTok.lit ++ [LikeTok.anySeq]) s =
      List.isPrefixOf (q.map Char.toLower) (s.map Char.toLower) := by
  induction q with
  | nil =>
    intro s
    simp [likeRun_anySeq_only]
  | cons p q ih =>
    intro s
    cases s with
    | nil => simp [likeRun_lit_nil]
    | cons c s =>
      rw [List.map_cons, List.cons_append, likeRun_lit_cons, ih s, List.map_cons,
        List.map_cons, List.isPrefixOf_cons₂]
      rw [show (Char.toLower c == Char.toLower p) = (Char.toLower p == Char.toLower c)
        from Bool.beq_comm]

/-- For a query without `LIKE` metacharacters, matching the pattern
`"%" + q + "%"` is exactly case-insensitive substring containment. -/
theorem ilikeMatch_searchPattern (q : List Char) (hq : noSpecials q = true)
    (s : List Char) : ilikeMatch (searchPattern q) s = containsCI q s := by
  have hlex : likeLex (searchPattern q) =
      LikeTok.anySeq :: (q.map LikeTok.lit ++ [LikeTok.anySeq]) := by
    rw [searchPattern, likeLex_pct, likeLex_append_pct q hq]
  have hfun : (fun t => likeRun (q.map LikeTok.lit ++ [LikeTok.anySeq]) t) =
      ((fun t => List.isPrefixOf (q.map Char.toLower) t) ∘ List.map Char.toLower) := by
    funext t
    exact likeRun_lits_pct q t
  rw [ilikeMatch, hlex, likeRun_anySeq, hfun, containsCI, List.map_tails, List.any_map]

/-! ### Claim theorems -/

/-- C1: creating a note and then fetching it by the returned id yields a note
with exactly the returned id, the given title and the given content. The
hypothesis is the `SERIAL` sequence invariant that no stored row already uses
the next id. -/
theorem c1_create_then_get (s : DBState) (t c : List Char)
    (h : ∀ n ∈ s.notes, n.id ≠ s.nextId) :
    getNote (createNote s t c).2 (createNote s t c).1 =
      Except.ok ⟨(createNote s t c).1, t, c⟩ := by
  have hnone : s.notes.find? (fun n => n.id == s.nextId) = none := by
    rw [List.find?_eq_none]
    intro n hn
    simpa using h n hn
  simp only [createNote, getNote, List.find?_append, hnone, Option.none_or]
  simp

/-- C1 witness: create on the empty store, then get. -/
theorem c1_create_then_get_witness :
    getNote (createNote emptyState ("A".toList) ("B".toList)).2
        (createNote emptyState ("A".toList) ("B".toList)).1 =
      Except.ok ⟨(createNote emptyState ("A".toList) ("B".toList)).1,
        "A".toList, "B".toList⟩ :=
  c1_create_then_get emptyState ("A".toList) ("B".toList) (by decide)

/-- C2 counterexample: the claim "search(q) returns exactly the notes whose
title or content contains q as a case-insensitive substring, for every q
including queries containing characters such as percent or underscore" fails
at q = "a_c" on a store holding the note ("abc", "xyz"): the `_` acts as a
`LIKE` wildcard, so the code returns the note although "a_c" is not a
substring of "abc" or "xyz". -/
theorem c2_counterexample :
    ¬ (searchNotes stateAbc ("a_c".toList) =
        specSearchNotes stateAbc ("a_c".toList)) := by
  decide

/-- C2 (amended): for every non-empty query containing none of the `LIKE`
metacharacters `%`, `_` and `\`, search returns exactly the notes whose title
or content contains the query as a case-insensitive substring. -/
theorem c2_search_is_ci_substring (s : DBState) (q : List Char)
    (h0 : q ≠ []) (hq : noSpecials q = true) :
    searchNotes s q = specSearchNotes s q := by
  rw [searchNotes, if_neg h0, specSearchNotes]
  apply List.filter_congr
  intro n _
  rw [noteMatches, ilikeMatch_searchPattern q hq n.title,
    ilikeMatch_searchPattern q hq n.content]

/-- C2 witness: the case-insensitive query "AB" on a store whose note has
title "xaby". -/
theorem c2_search_is_ci_substring_witness :
    searchNotes ⟨[⟨1, "xaby".toList, "zz".toList⟩], 2⟩ ("AB".toList) =
      specSearchNotes ⟨[⟨1, "xaby".toList, "zz".toList⟩], 2⟩ ("AB".toList) :=
  c2_search_is_ci_substring _ ("AB".toList) (by decide) (by decide)

/-- C3: search with the empty query returns all stored notes. -/
theorem c3_empty_query_returns_all (s : DBState) : searchNotes s [] = s.notes := by
  simp [searchNotes]

/-- C4: contrary to the claim, no GET request to /api/v1/notes/search reaches
the search handler: the route /api/v1/notes/{id} is registered first and its
variable segment matches "search", so the get-note handler runs,
`strconv.Atoi("search")` fails, and the response is always 400 "Invalid ID" —
for every store and every value of the query parameter q. -/
theorem c4_search_route_shadowed (s : DBState) (q : List Char) :
    dispatch s ⟨Method.get, searchPath, q, none⟩ = (invalidIdResponse, s) := rfl

/-- C5: for an id matching no stored note, update and delete fail with the
"note not found" error (zero rows affected), the PUT and DELETE handlers
respond 404, and the stored state is unchanged. -/
theorem c5_absent_id_not_found (s : DBState) (id bid : Int) (idStr t c : List Char)
    (hid : atoi idStr = Except.ok id) (hpos : 0 < id)
    (habs : ∀ n ∈ s.notes, n.id ≠ id) (ht : t ≠ []) (hc : c ≠ []) :
    updateNote s id t c = Except.error noteNotFoundMsg ∧
    deleteNote s id = Except.error noteNotFoundMsg ∧
    updateNoteHandler s idStr (some ⟨bid, t, c⟩) = (notFoundResponse, s) ∧
    deleteNoteHandler s idStr = (notFoundResponse, s) := by
  have hngt : ¬ id ≤ 0 := by omega
  have hany : s.notes.any (fun n => n.id == id) = false := by
    rw [List.any_eq_false]
    intro n hn
    simpa using habs n hn
  have hupd : updateNote s id t c = Except.error noteNotFoundMsg := by
    simp [updateNote, hany]
  have hdel : deleteNote s id = Except.error noteNotFoundMsg := by
    simp [deleteNote, hany]
  refine ⟨hupd, hdel, ?_, ?_⟩
  · simp [updateNoteHandler, hid, hngt, ht, hc, hupd, classifyDbError]
  · simp [deleteNoteHandler, hid, hngt, hdel, classifyDbError]

/-- C5 witness: update and delete of id 7 on the empty store. -/
theorem c5_absent_id_not_found_witness :
    updateNote emptyState 7 ("A".toList) ("B".toList) = Except.error noteNotFoundMsg ∧
    deleteNote emptyState 7 = Except.error noteNotFoundMsg ∧
    updateNoteHandler emptyState ("7".toList) (some ⟨0, "A".toList, "B".toList⟩) =
      (notFoundResponse, emptyState) ∧
    deleteNoteHandler emptyState ("7".toList) = (notFoundResponse, emptyState) :=
  c5_absent_id_not_found emptyState 7 0 ("7".toList) ("A".toList) ("B".toList)
    rfl (by decide) (by decide) (by decide) (by decide)

/-- C6: a request whose id segment fails to parse or parses to a non-positive
value gets 400 with a response that does not depend on the store (the storage
accessor is never invoked, and the returned state is unchanged); a positive id
matching no note gets 404 on GET; a matching note gets 200 with the note as
JSON. -/
theorem c6_id_validation (s : DBState) (idStr : List Char) (body : Option Note) :
    (atoi idStr = Except.error () →
      getNoteHandler s idStr = invalidIdResponse ∧
      updateNoteHandler s idStr body = (invalidIdResponse, s) ∧
      deleteNoteHandler s idStr = (invalidIdResponse, s)) ∧
    (∀ id : Int, atoi idStr = Except.ok id → id ≤ 0 →
      getNoteHandler s idStr = invalidIdResponse ∧
      updateNoteHandler s idStr body = (invalidIdResponse, s) ∧
      deleteNoteHandler s idStr = (invalidIdResponse, s)) ∧
    (∀ id : Int, atoi idStr = Except.ok id → 0 < id →
      (∀ n ∈ s.notes, n.id ≠ id) →
      getNoteHandler s idStr = notFoundResponse) ∧
    (∀ (id : Int) (n : Note), atoi idStr = Except.ok id → 0 < id →
      getNote s id = Except.ok n →
      getNoteHandler s idStr = ⟨200, Body.json (encodeNote n)⟩) := by
  refine ⟨?_, ?_, ?_, ?_⟩
  · intro he
    exact ⟨by simp [getNoteHandler, he], by simp [updateNoteHandler, he],
      by simp [deleteNoteHandler, he]⟩
  · intro id hid hle
    exact ⟨by simp [getNoteHandler, hid, hle], by simp [updateNoteHandler, hid, hle],
      by simp [deleteNoteHandler, hid, hle]⟩
  · intro id hid hpos habs
    have hngt : ¬ id ≤ 0 := by omega
    have hget : getNote s id = Except.error noteNotFoundMsg := by
      have hnone : s.notes.find? (fun n => n.id == id) = none := by
        rw [List.find?_eq_none]
        intro n hn
        simpa using habs n hn
      simp [getNote, hnone]
    simp [getNoteHandler, hid, hngt, hget, classifyDbError]
  · intro id n hid hpos hget
    have hngt : ¬ id ≤ 0 := by omega
    simp [getNoteHandler, hid, hngt, hget]

/-- C6 witness: id "abc" and id "0" give 400, id "5" (absent) gives 404, and
id "1" returns the stored note as JSON. -/
theorem c6_id_validation_witness :
    getNoteHandler stateAbc ("abc".toList) = invalidIdResponse ∧
    getNoteHandler stateAbc ("0".toList) = invalidIdResponse ∧
    getNoteHandler stateAbc ("5".toList) = notFoundResponse ∧
    getNoteHandler stateAbc ("1".toList) =
      ⟨200, Body.json (encodeNote ⟨1, "abc".toList, "xyz".toList⟩)⟩ :=
  ⟨((c6_id_validation stateAbc ("abc".toList) none).1 rfl).1,
   ((c6_id_validation stateAbc ("0".toList) none).2.1 0 rfl (by decide)).1,
   (c6_id_validation stateAbc ("5".toList) none).2.2.1 5 rfl (by decide) (by decide),
   (c6_id_validation stateAbc ("1".toList) none).2.2.2 1 ⟨1, "abc".toList, "xyz".toList⟩
     rfl (by decide) rfl⟩

/-- C7: a POST body that fails to decode, or whose title or content is empty
(a missing field decodes to the empty string), gets 400 and leaves the store
unchanged; a body with non-empty title and content gets 201 with the created
note carrying the server-assigned id, and the row is appended. -/
theorem c7_create_validation (s : DBState) :
    createNoteHandler s none = (invalidRequestResponse, s) ∧
    (∀ n : Note, n.title = [] ∨ n.content = [] →
      createNoteHandler s (some n) = (titleContentRequiredResponse, s)) ∧
    (∀ n : Note, n.title ≠ [] → n.content ≠ [] →
      createNoteHandler s (some n) =
        (⟨201, Body.json (encodeNote ⟨s.nextId, n.title, n.content⟩)⟩,
         ⟨s.notes ++ [⟨s.nextId, n.title, n.content⟩], s.nextId + 1⟩)) := by
  refine ⟨rfl, ?_, ?_⟩
  · intro n hv
    simp only [createNoteHandler]
    rw [if_pos hv]
  · intro n ht hc
    simp only [createNoteHandler]
    rw [if_neg (not_or.mpr ⟨ht, hc⟩)]
    rfl

/-- C7 witness: an empty title gives 400 with no row created; a valid body
gives 201 and appends the row with id 1. -/
theorem c7_create_validation_witness :
    createNoteHandler emptyState (some ⟨0, [], "B".toList⟩) =
      (titleContentRequiredResponse, emptyState) ∧
    createNoteHandler emptyState (some ⟨0, "A".toList, "B".toList⟩) =
      (⟨201, Body.json (encodeNote ⟨1, "A".toList, "B".toList⟩)⟩,
       ⟨[⟨1, "A".toList, "B".toList⟩], 2⟩) :=
  ⟨(c7_create_validation emptyState).2.1 ⟨0, [], "B".toList⟩ (Or.inl rfl),
   (c7_create_validation emptyState).2.2 ⟨0, "A".toList, "B".toList⟩
     (by decide) (by decide)⟩

/-! ### Preservation of the non-empty-fields invariant -/

theorem goodNotes_append (s : DBState) (t c : List Char) (h : goodNotes s)
    (ht : t ≠ []) (hc : c ≠ []) :
    goodNotes ⟨s.notes ++ [⟨s.nextId, t, c⟩], s.nextId + 1⟩ := by
  unfold goodNotes at h ⊢
  intro n hn
  simp only [List.mem_append, List.mem_singleton] at hn
  rcases hn with h1 | h2
  · exact h n h1
  · subst h2
    exact ⟨ht, hc⟩

theorem goodNotes_create_handler (s : DBState) (b : Option Note) (h : goodNotes s) :
    goodNotes (createNoteHandler s b).2 := by
  cases b with
  | none => exact h
  | some note =>
    by_cases hv : note.title = [] ∨ note.content = []
    · simp only [createNoteHandler]
      rw [if_pos hv]
      exact h
    · simp only [createNoteHandler]
      rw [if_neg hv]
      rw [not_or] at hv
      exact goodNotes_append s note.title note.content h hv.1 hv.2

theorem goodNotes_update_handler (s : DBState) (idStr : List Char) (b : Option Note)
    (h : goodNotes s) : goodNotes (updateNoteHandler s idStr b).2 := by
  unfold updateNoteHandler
  cases hA : atoi idStr with
  | error e => exact h
  | ok id =>
    dsimp only
    by_cases hle : id ≤ 0
    · rw [if_pos hle]
      exact h
    · rw [if_neg hle]
      cases b with
      | none => exact h
      | some note =>
        dsimp only
        by_cases hv : note.title = [] ∨ note.content = []
        · rw [if_pos hv]
          exact h
        · rw [if_neg hv]
          rw [not_or] at hv
          unfold updateNote
          by_cases hany : s.notes.any (fun n => n.id == id) = true
          · rw [if_pos hany]
            unfold goodNotes
            intro n hn
            simp only [List.mem_map] at hn
            obtain ⟨m, hm, hme⟩ := hn
            by_cases hid : (m.id == id) = true
            · rw [if_pos hid] at hme
              subst hme
              exact ⟨hv.1, hv.2⟩
            · rw [if_neg hid] at hme
              subst hme
              exact h m hm
          · rw [if_neg hany]
            exact h

theorem goodNotes_delete_handler (s : DBState) (idStr : List Char)
    (h : goodNotes s) : goodNotes (deleteNoteHandler s idStr).2 := by
  unfold deleteNoteHandler
  cases hA : atoi idStr with
  | error e => exact h
  | ok id =>
    dsimp only
    by_cases hle : id ≤ 0
    · rw [if_pos hle]
      exact h
    · rw [if_neg hle]
      unfold deleteNote
      by_cases hany : s.notes.any (fun n => n.id == id) = true
      · rw [if_pos hany]
        unfold goodNotes
        intro n hn
        simp only [List.mem_filter] at hn
        exact h n hn.1
      · rw [if_neg hany]
        exact h

theorem goodNotes_step (s : DBState) (r : HttpRequest) (h : goodNotes s) :
    goodNotes (stepRequest s r) := by
  unfold stepRequest dispatch
  cases r.method with
  | get =>
    cases matchNotesIdPath r.path with
    | some idStr => exact h
    | none =>
      by_cases hp : r.path = searchPath
      · rw [if_pos hp]
        exact h
      · rw [if_neg hp]
        exact h
  | post =>
    by_cases hp : r.path = notesPath
    · rw [if_pos hp]
      exact goodNotes_create_handler s r.body h
    · rw [if_neg hp]
      exact h
  | put =>
    cases matchNotesIdPath r.path with
    | some idStr => exact goodNotes_update_handler s idStr r.body h
    | none => exact h
  | delete =>
    cases matchNotesIdPath r.path with
    | some idStr => exact goodNotes_delete_handler s idStr h
    | none => exact h

theorem goodNotes_run (rs : List HttpRequest) :
    ∀ s : DBState, goodNotes s → goodNotes (rs.foldl stepRequest s) := by
  induction rs with
  | nil =>
    intro s h
    exact h
  | cons r rs ih =>
    intro s h
    exact ih (stepRequest s r) (goodNotes_step s r h)

/-- C8: starting from the empty store, after any sequence of HTTP requests
every persisted note has a non-empty title and a non-empty content — the
invariant is enforced by the handlers' validation alone, for the storage
layer itself accepts empty strings: create inserts whatever strings it is
given, and update overwrites with whatever strings it is given. -/
theorem c8_nonempty_invariant (rs : List HttpRequest) :
    goodNotes (rs.foldl stepRequest emptyState) ∧
    (∀ (s : DBState) (t c : List Char),
      ((createNote s t c).2).notes = s.notes ++ [⟨s.nextId, t, c⟩]) ∧
    (∀ (s : DBState) (id : Int) (t c : List Char),
      s.notes.any (fun n => n.id == id) = true →
      updateNote s id t c =
        Except.ok ⟨s.notes.map (fun n => if n.id == id then ⟨n.id, t, c⟩ else n),
          s.nextId⟩) := by
  refine ⟨goodNotes_run rs emptyState ?_, fun s t c => rfl, fun s id t c hm => ?_⟩
  · unfold goodNotes emptyState
    intro n hn
    simp at hn
  · simp [updateNote, hm]

/-- C8 witness: after one valid POST the single stored note has non-empty
fields, and the storage layer's update accepts empty strings. -/
theorem c8_nonempty_invariant_witness :
    ((⟨1, "A".toList, "B".toList⟩ : Note).title ≠ [] ∧
      (⟨1, "A".toList, "B".toList⟩ : Note).content ≠ []) ∧
    updateNote stateAbc 1 [] [] =
      Except.ok ⟨stateAbc.notes.map
        (fun n => if n.id == 1 then ⟨n.id, [], []⟩ else n), stateAbc.nextId⟩ :=
  ⟨(c8_nonempty_invariant
      [⟨Method.post, notesPath, [], some ⟨0, "A".toList, "B".toList⟩⟩]).1
      ⟨1, "A".toList, "B".toList⟩ (by decide),
   (c8_nonempty_invariant []).2.2 stateAbc 1 [] [] (by decide)⟩

/-- C9 counterexample: with no matching notes the search handler responds 200
but the body is search_result: null (the nil Go slice marshals to JSON null),
not an empty array as the claim states. -/
theorem c9_counterexample :
    ¬ (searchNotesHandler emptyState ("a".toList) =
        ⟨200, Body.json (Json.obj [(searchResultKey, Json.arr [])])⟩) := by
  intro hcontra
  rw [show searchNotesHandler emptyState ("a".toList) =
      ⟨200, Body.json (Json.obj [(searchResultKey, Json.null)])⟩ from rfl] at hcontra
  simp at hcontra

/-- C9 (amended): for a non-empty query matching no stored note, search
returns the empty sequence (not an error) and the handler responds 200 with
a JSON body whose search_result value is JSON null — the marshalling of the
nil slice — rather than an empty array. -/
theorem c9_no_match_gives_null (s : DBState) (q : List Char) (h0 : q ≠ [])
    (h : ∀ n ∈ s.notes, noteMatches q n = false) :
    searchNotes s q = [] ∧
    searchNotesHandler s q =
      ⟨200, Body.json (Json.obj [(searchResultKey, Json.null)])⟩ := by
  have hs : searchNotes s q = [] := by
    rw [searchNotes, if_neg h0, List.filter_eq_nil_iff]
    intro n hn
    simp [h n hn]
  refine ⟨hs, ?_⟩
  simp only [searchNotesHandler]
  rw [if_neg h0, hs]
  rfl

/-- C9 witness: query "qq" on the store holding only the note ("abc", "xyz"). -/
theorem c9_no_match_gives_null_witness :
    searchNotes stateAbc ("qq".toList) = [] ∧
    searchNotesHandler stateAbc ("qq".toList) =
      ⟨200, Body.json (Json.obj [(searchResultKey, Json.null)])⟩ :=
  c9_no_match_gives_null stateAbc ("qq".toList) (by decide) (by decide)

/-- C10: the handlers classify a storage error as not-found precisely when its
message string equals "note not found" — that message yields the 404
"Note not found" response, and every other message yields the 500
"Internal server error" response. -/
theorem c10_error_classification (msg : List Char) :
    ((classifyDbError msg).status = 404 ↔ msg = "note not found".toList) ∧
    (msg ≠ "note not found".toList →
      classifyDbError msg = internalErrorResponse) ∧
    classifyDbError ("note not found".toList) = notFoundResponse := by
  by_cases hm : msg = "note not found".toList
  · subst hm
    exact ⟨⟨fun _ => rfl, fun _ => rfl⟩, fun hne => absurd rfl hne, rfl⟩
  · have hcl : classifyDbError msg = internalErrorResponse := by
      simp only [classifyDbError]
      rw [if_neg ?hc]
      case hc =>
        rw [show noteNotFoundMsg = "note not found".toList from rfl]
        exact hm
    refine ⟨⟨fun h => ?_, fun h => absurd h hm⟩, fun _ => hcl, rfl⟩
    rw [hcl] at h
    exact absurd h (by decide)

/-- C10 witness: the exact message gives 404; a different message gives the
generic 500 response. -/
theorem c10_error_classification_witness :
    (classifyDbError ("note not found".toList)).status = 404 ∧
    classifyDbError ("connection reset".toList) = internalErrorResponse :=
  ⟨(c10_error_classification ("note not found".toList)).1.mpr rfl,
   (c10_error_classification ("connection reset".toList)).2.1 (by decide)⟩

end NotesApp
